import Mathlib

/-!
Verification of the advanced-vector container (src/advanced-vector/vector.h).

Two shallow embeddings are used:

* `AdvVec.Vec` models `Vector<T>` at the level of its observable state: the
  list of live elements (`data_[0 .. size_)`) and the capacity of the owned
  `RawMemory`.  Each public operation of `Vector<T>` is translated into a
  function on `Vec`, following the branch structure of the C++ source.

* `AdvVec.RawMemory` / `AdvVec.VecRep` model the representation layer
  (`RawMemory<T>`: an owning pointer plus a capacity), used for the claims
  about buffer ownership (move assignment of `RawMemory`, move construction
  of `Vector`).  Pointers are abstracted as `Option Nat` (`none` = nullptr,
  `some a` = address `a`).

Exception behaviour of growth paths for copy-constructible types with a
throwing copy constructor is modelled by `copyRange` / `reserveCopy` /
`emplaceBackCopy`, which thread the observable container state into the
error result, mirroring the fact that the C++ code writes `data_` and
`size_` only after every element transfer has succeeded.
-/

namespace AdvVec

/-- Observable state of `Vector<T>`: live elements `data_[0..size_)` and the
capacity of the owned `RawMemory`.  `size_` is `elems.length`. -/
structure Vec (T : Type) where
  elems : List T
  cap : Nat
  deriving Repr, DecidableEq

namespace Vec

variable {T : Type}

/-- Size accessor: `size_t Vector<T>::Size()` returns `size_`. -/
def size (v : Vec T) : Nat := v.elems.length

/-- Default constructor `Vector() = default`: `size_ = 0`, default `RawMemory`
(null buffer, capacity 0). -/
def emptyV (T : Type) : Vec T := ⟨[], 0⟩

/-- Sized constructor `Vector(size_t size)`: allocates exactly `size` slots and
value-initializes `size` elements (`std::uninitialized_value_construct_n`). -/
def sizedV (T : Type) [Inhabited T] (n : Nat) : Vec T :=
  ⟨List.replicate n default, n⟩

/-- Copy constructor `Vector(const Vector& other)`: allocates `other.size_`
slots and transfers the `other.size_` elements (moved or copied; either way the
new container holds the same values). -/
def copyCtor (src : Vec T) : Vec T := ⟨src.elems, src.size⟩

/-- Move constructor `Vector(Vector&& other)`: the fresh object starts default
initialized and swaps `size_` and `data_` with `other`.  Returns
(new object, state left in `other`). -/
def moveCtor (src : Vec T) : Vec T × Vec T :=
  (⟨src.elems, src.cap⟩, emptyV T)

/-- Member `Reserve(new_capacity)`: no-op when `new_capacity <= Capacity()`,
otherwise allocates exactly `new_capacity` slots, transfers the elements,
destroys the old ones and swaps storage. -/
def reserve (v : Vec T) (c : Nat) : Vec T :=
  if c ≤ v.cap then v else ⟨v.elems, c⟩

/-- Member `Resize(new_size)`: growth reserves exactly `new_size` then
value-initializes the new slots; shrinking destroys the tail.  `size_` is set
to `new_size` last. -/
def resize [Inhabited T] (v : Vec T) (n : Nat) : Vec T :=
  if v.size < n then
    let r := v.reserve n
    ⟨r.elems ++ List.replicate (n - v.size) default, r.cap⟩
  else
    ⟨v.elems.take n, v.cap⟩

/-- Capacity chosen by `EmplaceBack` when `size_ == Capacity()`:
`size_ == 0 ? capacity_tmp += 1 : capacity_tmp += size_ * 2`. -/
def growCap (v : Vec T) : Nat := if v.size = 0 then 1 else v.size * 2

/-- Member `EmplaceBack(args...)`: on `size_ == Capacity()` it allocates
`growCap` slots, constructs the new element at index `size_` in the new
storage, transfers the old elements in front of it and swaps; otherwise it
constructs in place at `data_ + size_`.  In both branches `++size_`. -/
def emplaceBack (v : Vec T) (x : T) : Vec T :=
  if v.size = v.cap then
    ⟨v.elems ++ [x], v.growCap⟩
  else
    ⟨v.elems ++ [x], v.cap⟩

/-- Member `PushBack` (both overloads) forwards to `EmplaceBack`. -/
def pushBack (v : Vec T) (x : T) : Vec T := v.emplaceBack x

/-- Value returned by `EmplaceBack`/`PushBack`: `data_[size_ - 1]` after the
increment, i.e. the element at index `size - 1` of the new state. -/
def emplaceBackRet (v : Vec T) (x : T) : Option T :=
  (v.emplaceBack x).elems[(v.emplaceBack x).size - 1]?

/-- Member `PopBack()`: destroys `data_[size_ - 1]` and decrements `size_`
(precondition `size_ > 0`). -/
def popBack (v : Vec T) : Vec T := ⟨v.elems.dropLast, v.cap⟩

/-- Member `Emplace(pos, args...)` with `result = pos - begin()`:
`result == size_` delegates to `EmplaceBack`; with spare capacity it shifts
`[result, size_)` one slot right and assigns the new value at `result`;
otherwise it allocates `size_ * 2` slots, constructs the new element at
`result` in the new storage and transfers prefix and suffix around it. -/
def emplace (v : Vec T) (p : Nat) (x : T) : Vec T :=
  if p = v.size then
    v.emplaceBack x
  else if v.size < v.cap then
    ⟨v.elems.take p ++ x :: v.elems.drop p, v.cap⟩
  else
    ⟨v.elems.take p ++ x :: v.elems.drop p, v.size * 2⟩

/-- Member `Insert` (both overloads) forwards to `Emplace`. -/
def insertV (v : Vec T) (p : Nat) (x : T) : Vec T := v.emplace p x

/-- Member `Erase(pos)`: `std::move(pos + 1, end(), pos)` then destroys the
last slot and decrements `size_` (precondition `pos` in `[begin, end)`). -/
def erase (v : Vec T) (p : Nat) : Vec T :=
  ⟨v.elems.take p ++ v.elems.drop (p + 1), v.cap⟩

/-- Member `Swap(other)`: swaps `size_` and the `RawMemory` (pointer and
capacity); returns (new this, new other). -/
def swapV (a b : Vec T) : Vec T × Vec T := (b, a)

/-- Copy assignment `operator=(const Vector& rhs)`.  `aliased` models
`this == &rhs`: then the guarded block is skipped and `size_ = rhs.size_`
rewrites `size_` with its own value.  Otherwise: if `rhs.size_ > Capacity()`
build a temporary copy (capacity `rhs.size_`) and swap it in; else assign
element-wise over the common prefix and destroy the surplus or
copy-construct the missing tail, ending with `size_ = rhs.size_`. -/
def copyAssign (dst src : Vec T) (aliased : Bool) : Vec T :=
  if aliased then
    dst
  else if dst.cap < src.size then
    ⟨src.elems, src.size⟩
  else
    ⟨src.elems, dst.cap⟩

/-- Move assignment `operator=(Vector&& rhs)`: `Swap(rhs)`.  Returns
(new this, new rhs). -/
def moveAssign (dst src : Vec T) : Vec T × Vec T := swapV dst src

end Vec

/-- Representation-level model of `RawMemory<T>`: `buffer_` (a raw owning
pointer, abstracted as an address, `none` = nullptr) and `capacity_`. -/
structure RawMemory where
  buffer : Option Nat
  capacity : Nat
  deriving Repr, DecidableEq

namespace RawMemory

/-- Default constructor `RawMemory() = default`: `buffer_ = nullptr`,
`capacity_ = 0`. -/
def defaultRM : RawMemory := ⟨none, 0⟩

/-- Member `Swap(other)`: `std::swap(buffer_, ...)` and
`std::swap(capacity_, ...)`.  Returns (new this, new other). -/
def swapRM (a b : RawMemory) : RawMemory × RawMemory := (b, a)

/-- Move assignment `operator=(RawMemory&& rhs)`: when `this != &rhs` it
executes `buffer_ = std::move(rhs.buffer_); capacity_ = std::move(rhs.capacity_)`.
On a raw pointer and a `size_t`, `std::move` degenerates to a plain copy, so
`rhs` keeps its `buffer_` and `capacity_` unchanged.  Returns
(new this, new rhs). -/
def moveAssignRM (a rhs : RawMemory) (aliased : Bool) : RawMemory × RawMemory :=
  if aliased then
    (a, rhs)
  else
    (⟨rhs.buffer, rhs.capacity⟩, rhs)

end RawMemory

/-- Representation-level state of `Vector<T>`: the owned `RawMemory`
(`data_`) and `size_`. -/
structure VecRep where
  data : RawMemory
  size : Nat
  deriving Repr, DecidableEq

namespace VecRep

/-- Default constructor of `Vector`: `size_ = 0` and a default `RawMemory`. -/
def defaultVR : VecRep := ⟨RawMemory.defaultRM, 0⟩

/-- Move constructor `Vector(Vector&& other)`: the fresh object starts in the
default-constructed state, then `std::swap(size_, other.size_)` and
`data_.Swap(other.data_)`.  Returns (new object, state left in `other`). -/
def moveCtorVR (other : VecRep) : VecRep × VecRep :=
  let this0 := defaultVR
  let sizes := (other.size, this0.size)
  let bufs := RawMemory.swapRM this0.data other.data
  (⟨bufs.1, sizes.1⟩, ⟨bufs.2, sizes.2⟩)

end VecRep

section ExceptionModel

variable {T : Type}

/-- Element-by-element transfer `std::uninitialized_copy_n` for a type whose
copy constructor may throw: `fail a` says that copy-constructing from the
value `a` throws.  On failure the already-constructed prefix is destroyed and
the exception propagates; on success the new buffer holds the same values. -/
def copyRange (fail : T → Bool) : List T → Except Unit (List T)
  | [] => .ok []
  | a :: rest =>
    if fail a then .error ()
    else (copyRange fail rest).map (a :: ·)

/-- Member `Reserve` on a copy-constructible type whose move constructor may
throw (the `std::uninitialized_copy_n` branch).  `data_` and `size_` are
written only after the whole transfer has succeeded, so the error result
carries the untouched container state observable by the caller. -/
def reserveCopy (fail : T → Bool) (v : Vec T) (c : Nat) : Except (Vec T) (Vec T) :=
  if c ≤ v.cap then .ok v
  else
    match copyRange fail v.elems with
    | .error _ => .error v
    | .ok copied => .ok ⟨copied, c⟩

/-- Member `EmplaceBack`/`PushBack`-by-copy on the same kind of type.  In the
growth branch the new element is constructed first in the new storage, then
the old elements are copied across; `data_`/`size_` are only touched after
everything succeeded, so every error result carries the untouched state. -/
def emplaceBackCopy (fail : T → Bool) (v : Vec T) (x : T) : Except (Vec T) (Vec T) :=
  if v.size = v.cap then
    if fail x then .error v
    else
      match copyRange fail v.elems with
      | .error _ => .error v
      | .ok copied => .ok ⟨copied ++ [x], v.growCap⟩
  else
    if fail x then .error v
    else .ok ⟨v.elems ++ [x], v.cap⟩

end ExceptionModel

/-- Container states reachable by sequences of public `Vector<T>` operations:
the constructors (default, sized, copy, move), `Reserve`, `Resize`,
`PushBack`/`EmplaceBack`, `PopBack`, `Insert`/`Emplace`, `Erase`, `Swap`, and
copy/move assignment, each with its documented precondition. -/
inductive Reach (T : Type) [Inhabited T] : Vec T → Prop where
  | defaultC : Reach T (Vec.emptyV T)
  | sizedC (n : Nat) : Reach T (Vec.sizedV T n)
  | copyC {v : Vec T} : Reach T v → Reach T (Vec.copyCtor v)
  | moveCNew {v : Vec T} : Reach T v → Reach T (Vec.moveCtor v).1
  | moveCSrc {v : Vec T} : Reach T v → Reach T (Vec.moveCtor v).2
  | reserveC {v : Vec T} (c : Nat) : Reach T v → Reach T (v.reserve c)
  | resizeC {v : Vec T} (n : Nat) : Reach T v → Reach T (v.resize n)
  | emplaceBackC {v : Vec T} (x : T) : Reach T v → Reach T (v.emplaceBack x)
  | pushBackC {v : Vec T} (x : T) : Reach T v → Reach T (v.pushBack x)
  | popBackC {v : Vec T} : Reach T v → 0 < v.size → Reach T v.popBack
  | emplaceC {v : Vec T} (p : Nat) (x : T) : Reach T v → p ≤ v.size →
      Reach T (v.emplace p x)
  | insertC {v : Vec T} (p : Nat) (x : T) : Reach T v → p ≤ v.size →
      Reach T (v.insertV p x)
  | eraseC {v : Vec T} (p : Nat) : Reach T v → p < v.size → Reach T (v.erase p)
  | swapFst {a b : Vec T} : Reach T a → Reach T b → Reach T (Vec.swapV a b).1
  | swapSnd {a b : Vec T} : Reach T a → Reach T b → Reach T (Vec.swapV a b).2
  | copyAssignC {a b : Vec T} (al : Bool) : Reach T a → Reach T b →
      Reach T (Vec.copyAssign a b al)
  | moveAssignFst {a b : Vec T} : Reach T a → Reach T b →
      Reach T (Vec.moveAssign a b).1
  | moveAssignSnd {a b : Vec T} : Reach T a → Reach T b →
      Reach T (Vec.moveAssign a b).2

/-- Result of appending the values of `xs`, in order, with `PushBack` to a
default-constructed container. -/
def appendAll (T : Type) (xs : List T) : Vec T :=
  xs.foldl Vec.pushBack (Vec.emptyV T)

section Lemmas

variable {T : Type}

theorem Vec.elems_emplaceBack (v : Vec T) (x : T) :
    (v.emplaceBack x).elems = v.elems ++ [x] := by
  unfold emplaceBack
  split <;> rfl

theorem Vec.size_emplaceBack (v : Vec T) (x : T) :
    (v.emplaceBack x).size = v.size + 1 := by
  unfold size
  rw [Vec.elems_emplaceBack]
  simp

theorem Vec.elems_reserve (v : Vec T) (c : Nat) : (v.reserve c).elems = v.elems := by
  unfold reserve
  split <;> rfl

theorem Vec.size_le_cap_emplaceBack (v : Vec T) (x : T) (h : v.size ≤ v.cap) :
    (v.emplaceBack x).size ≤ (v.emplaceBack x).cap := by
  unfold emplaceBack growCap size at *
  split
  · simp only [List.length_append, List.length_cons, List.length_nil]
    split <;> omega
  · simp only [List.length_append, List.length_cons, List.length_nil]
    omega

theorem List.take_cons_drop_eq_insertIdx (x : T) :
    ∀ (p : Nat) (l : List T), p ≤ l.length →
      l.take p ++ x :: l.drop p = l.insertIdx p x
  | 0, l, _ => rfl
  | p + 1, [], h => by simp at h
  | p + 1, a :: l, h => by
    simpa using List.take_cons_drop_eq_insertIdx x p l (Nat.le_of_succ_le_succ h)

theorem List.take_drop_succ_eq_eraseIdx :
    ∀ (l : List T) (p : Nat), l.take p ++ l.drop (p + 1) = l.eraseIdx p
  | [], p => by simp
  | a :: l, 0 => by simp
  | a :: l, p + 1 => by
    simpa using List.take_drop_succ_eq_eraseIdx l p

theorem Vec.size_le_cap_reserve (v : Vec T) (c : Nat) (h : v.size ≤ v.cap) :
    (v.reserve c).size ≤ (v.reserve c).cap := by
  unfold reserve
  split
  · exact h
  · simp only [Vec.size] at *
    omega

theorem Vec.size_le_cap_resize [Inhabited T] (v : Vec T) (n : Nat)
    (h : v.size ≤ v.cap) : (v.resize n).size ≤ (v.resize n).cap := by
  unfold resize
  split
  · simp only [Vec.size, List.length_append, List.length_replicate,
      Vec.elems_reserve] at *
    unfold reserve
    split <;> (try simp only [Vec.size]) <;> omega
  · simp only [Vec.size, List.length_take] at *
    omega

theorem Vec.size_le_cap_popBack (v : Vec T) (h : v.size ≤ v.cap) :
    v.popBack.size ≤ v.popBack.cap := by
  simp only [popBack, Vec.size, List.length_dropLast] at *
  omega

theorem Vec.size_le_cap_emplace (v : Vec T) (p : Nat) (x : T) (hp : p ≤ v.size)
    (h : v.size ≤ v.cap) : (v.emplace p x).size ≤ (v.emplace p x).cap := by
  unfold emplace
  split
  · exact v.size_le_cap_emplaceBack x h
  · split
    · simp only [Vec.size, List.length_append, List.length_cons,
        List.length_take, List.length_drop] at *
      omega
    · simp only [Vec.size, List.length_append, List.length_cons,
        List.length_take, List.length_drop] at *
      omega

theorem Vec.size_le_cap_erase (v : Vec T) (p : Nat) (h : v.size ≤ v.cap) :
    (v.erase p).size ≤ (v.erase p).cap := by
  simp only [erase, Vec.size, List.length_append, List.length_take,
    List.length_drop] at *
  omega

theorem Vec.size_le_cap_copyAssign (dst src : Vec T) (al : Bool)
    (h : dst.size ≤ dst.cap) :
    (Vec.copyAssign dst src al).size ≤ (Vec.copyAssign dst src al).cap := by
  unfold copyAssign
  split
  · exact h
  · split
    · simp [Vec.size]
    · simp only [Vec.size] at *
      omega

end Lemmas

/-- C1: for every container state reachable by any sequence of public
operations (construction, Reserve, Resize, PushBack/EmplaceBack, PopBack,
Insert/Emplace, Erase, Swap, copy/move assignment), `Size() <= Capacity()`
holds. -/
theorem size_le_cap_of_reach {T : Type} [Inhabited T] {v : Vec T}
    (h : Reach T v) : v.size ≤ v.cap := by
  induction h with
  | defaultC => exact Nat.le.refl
  | sizedC n => simp [Vec.sizedV, Vec.size]
  | copyC _ _ => exact Nat.le.refl
  | moveCNew _ ih => exact ih
  | moveCSrc _ _ => exact Nat.le.refl
  | reserveC c _ ih => exact Vec.size_le_cap_reserve _ c ih
  | resizeC n _ ih => exact Vec.size_le_cap_resize _ n ih
  | emplaceBackC x _ ih => exact Vec.size_le_cap_emplaceBack _ x ih
  | pushBackC x _ ih => exact Vec.size_le_cap_emplaceBack _ x ih
  | popBackC _ _ ih => exact Vec.size_le_cap_popBack _ ih
  | emplaceC p x _ hp ih => exact Vec.size_le_cap_emplace _ p x hp ih
  | insertC p x _ hp ih => exact Vec.size_le_cap_emplace _ p x hp ih
  | eraseC p _ _ ih => exact Vec.size_le_cap_erase _ p ih
  | swapFst _ _ _ ihb => exact ihb
  | swapSnd _ _ iha _ => exact iha
  | copyAssignC al _ _ iha _ => exact Vec.size_le_cap_copyAssign _ _ al iha
  | moveAssignFst _ _ _ ihb => exact ihb
  | moveAssignSnd _ _ iha _ => exact iha

/-- Witness for C1 at a concrete reachable state: push one element onto a
default-constructed container and check the invariant there. -/
theorem size_le_cap_of_reach_witness :
    ((Vec.emptyV Nat).emplaceBack 7).size ≤ ((Vec.emptyV Nat).emplaceBack 7).cap :=
  size_le_cap_of_reach (Reach.emplaceBackC 7 Reach.defaultC)

theorem Vec.elems_foldl_pushBack {T : Type} (xs : List T) :
    ∀ v : Vec T, (xs.foldl Vec.pushBack v).elems = v.elems ++ xs := by
  induction xs with
  | nil => intro v; simp
  | cons a rest ih =>
    intro v
    simp only [List.foldl_cons]
    rw [ih, Vec.pushBack, Vec.elems_emplaceBack]
    simp

/-- C2: appending the values of `xs`, in order, with `PushBack` to a
default-constructed container yields `Size() = xs.length`, and iterating the
live range yields exactly the appended values in append order. -/
theorem appendAll_spec (T : Type) (xs : List T) :
    (appendAll T xs).size = xs.length ∧ (appendAll T xs).elems = xs := by
  have he : (appendAll T xs).elems = xs := by
    rw [appendAll, Vec.elems_foldl_pushBack]
    rfl
  exact ⟨by rw [Vec.size, he], he⟩

/-- C3: for every `PushBack`/`EmplaceBack` call: when `size == capacity`
beforehand the new capacity is `max 1 (2 * old capacity)`; in all cases the
size grows by exactly one and the returned reference designates the element
at index `size - 1`, which holds the appended value. -/
theorem emplaceBack_growth_spec {T : Type} (v : Vec T) (x : T) :
    (v.size = v.cap → (v.emplaceBack x).cap = max 1 (2 * v.cap)) ∧
    (v.emplaceBack x).size = v.size + 1 ∧
    v.emplaceBackRet x = some x := by
  refine ⟨?_, v.size_emplaceBack x, ?_⟩
  · intro h
    unfold Vec.emplaceBack Vec.growCap
    rw [if_pos h]
    simp only [Vec.size] at h ⊢
    rw [← h]
    split <;> omega
  · unfold Vec.emplaceBackRet
    rw [Vec.size_emplaceBack, Vec.elems_emplaceBack]
    simp only [Nat.add_sub_cancel, Vec.size]
    simp

/-- Witness for C3 at the concrete input: push 5 onto an empty container
(where size = capacity = 0 holds). -/
theorem emplaceBack_growth_spec_witness :
    ((Vec.emptyV Nat).emplaceBack 5).cap = max 1 (2 * (Vec.emptyV Nat).cap) ∧
    ((Vec.emptyV Nat).emplaceBack 5).size = (Vec.emptyV Nat).size + 1 ∧
    (Vec.emptyV Nat).emplaceBackRet 5 = some 5 :=
  ⟨(emplaceBack_growth_spec (Vec.emptyV Nat) 5).1 rfl,
   (emplaceBack_growth_spec (Vec.emptyV Nat) 5).2⟩

/-- C4: when a copy constructor invoked during a growth transfer (`Reserve`
or a reallocating `PushBack`/`EmplaceBack` on a copy-constructible type with
a throwing move constructor) throws, the failure propagates and the
container's observable state is exactly as it was before the call. -/
theorem strong_exception_guarantee_copy {T : Type} (fail : T → Bool)
    (v s : Vec T) (c : Nat) (x : T)
    (h : reserveCopy fail v c = .error s ∨ emplaceBackCopy fail v x = .error s) :
    s = v := by
  rcases h with h | h
  · unfold reserveCopy at h
    split at h
    · simp at h
    · split at h
      · simp only [Except.error.injEq] at h
        exact h.symm
      · simp at h
  · unfold emplaceBackCopy at h
    split at h
    · split at h
      · simp only [Except.error.injEq] at h
        exact h.symm
      · split at h
        · simp only [Except.error.injEq] at h
          exact h.symm
        · simp at h
    · split at h
      · simp only [Except.error.injEq] at h
        exact h.symm
      · simp at h

/-- Witness for C4: a full container `[0, 1]` with capacity 2 whose element
`1` throws on copy; the reallocating append fails and the state reported at
the throw equals the original. -/
theorem strong_exception_guarantee_copy_witness :
    (⟨[0, 1], 2⟩ : Vec Nat) = ⟨[0, 1], 2⟩ :=
  strong_exception_guarantee_copy (fun n => n == 1) ⟨[0, 1], 2⟩ ⟨[0, 1], 2⟩ 0 5
    (Or.inr (by rfl))

/-- C5, evaluated at a failing input: after `a = std::move(b)` with
`b = {buffer = 7, capacity = 3}` and a distinct `a`, the source `b` still
holds its buffer and capacity (it is not left null/zero), and `a` holds the
same buffer address, so two `RawMemory` objects own the same block. -/
theorem rawMemory_moveAssign_retains_source :
    ((RawMemory.moveAssignRM ⟨some 4, 2⟩ ⟨some 7, 3⟩ false).2.buffer = some 7) ∧
    ((RawMemory.moveAssignRM ⟨some 4, 2⟩ ⟨some 7, 3⟩ false).2.capacity = 3) ∧
    ((RawMemory.moveAssignRM ⟨some 4, 2⟩ ⟨some 7, 3⟩ false).1.buffer =
      (RawMemory.moveAssignRM ⟨some 4, 2⟩ ⟨some 7, 3⟩ false).2.buffer) ∧
    ¬((RawMemory.moveAssignRM ⟨some 4, 2⟩ ⟨some 7, 3⟩ false).2.buffer = none ∧
      (RawMemory.moveAssignRM ⟨some 4, 2⟩ ⟨some 7, 3⟩ false).2.capacity = 0) := by
  decide

theorem Vec.elems_emplace {T : Type} (v : Vec T) (p : Nat) (x : T)
    (hp : p ≤ v.size) : (v.emplace p x).elems = v.elems.insertIdx p x := by
  have key := List.take_cons_drop_eq_insertIdx x p v.elems hp
  unfold emplace
  split
  · rename_i hps
    subst hps
    rw [Vec.elems_emplaceBack, ← key]
    simp [Vec.size]
  · split
    · exact key
    · exact key

theorem Vec.elems_erase {T : Type} (v : Vec T) (p : Nat) :
    (v.erase p).elems = v.elems.eraseIdx p :=
  List.take_drop_succ_eq_eraseIdx v.elems p

/-- C6: for every container, every position `p ≤ Size()` and every value `x`,
`Insert` at `p` followed by `Erase` at `p` restores the original element
sequence. -/
theorem insert_erase_id {T : Type} (v : Vec T) (p : Nat) (x : T)
    (hp : p ≤ v.size) : ((v.insertV p x).erase p).elems = v.elems := by
  unfold Vec.insertV
  rw [Vec.elems_erase, Vec.elems_emplace v p x hp]
  exact List.eraseIdx_insertIdx p v.elems

/-- Witness for C6 at the spec's example: `[a, b, d]` with `insert(pos = 2, c)`
then `erase(pos = 2)`. -/
theorem insert_erase_id_witness :
    (((⟨[10, 20, 40], 3⟩ : Vec Nat).insertV 2 30).erase 2).elems = [10, 20, 40] :=
  insert_erase_id ⟨[10, 20, 40], 3⟩ 2 30 (by decide)

/-- C7: move assignment swaps: the destination takes the source's prior size,
capacity and elements, and the source takes the destination's prior size,
capacity and elements (not a one-directional steal). -/
theorem moveAssign_swap_semantics {T : Type} (a b : Vec T) :
    (Vec.moveAssign a b).1.elems = b.elems ∧ (Vec.moveAssign a b).1.cap = b.cap ∧
    (Vec.moveAssign a b).1.size = b.size ∧
    (Vec.moveAssign a b).2.elems = a.elems ∧ (Vec.moveAssign a b).2.cap = a.cap ∧
    (Vec.moveAssign a b).2.size = a.size :=
  ⟨rfl, rfl, rfl, rfl, rfl, rfl⟩

/-- C8: copy self-assignment (`this == &rhs`) leaves the container unchanged:
the guarded body is skipped and the final `size_ = rhs.size_` rewrites the
size with its own value. -/
theorem copyAssign_self_id {T : Type} (v : Vec T) :
    Vec.copyAssign v v true = v := rfl

/-- C9: after move construction the moved-from source equals the
default-constructed container (size 0, capacity 0, null buffer), because the
fresh object swaps its default-initialized state with the source; the new
object takes the source's prior representation. -/
theorem moveCtor_source_default (a : VecRep) :
    (VecRep.moveCtorVR a).2 = VecRep.defaultVR ∧
    (VecRep.moveCtorVR a).1 = a :=
  ⟨rfl, rfl⟩

/-- C10: copy assignment between distinct containers where the source's size
fits in the destination's capacity keeps the destination's capacity (the
elements are assigned or constructed in place, with no reallocation), and the
elements become the source's. -/
theorem copyAssign_cap_preserved {T : Type} (dst src : Vec T)
    (h : src.size ≤ dst.cap) :
    (Vec.copyAssign dst src false).cap = dst.cap ∧
    (Vec.copyAssign dst src false).elems = src.elems := by
  unfold Vec.copyAssign
  rw [if_neg (by simp), if_neg (by omega)]
  exact ⟨rfl, rfl⟩

/-- Witness for C10: assigning a one-element container into a destination of
capacity 5 keeps capacity 5. -/
theorem copyAssign_cap_preserved_witness :
    (Vec.copyAssign (⟨[1, 2, 3], 5⟩ : Vec Nat) ⟨[9], 1⟩ false).cap = 5 ∧
    (Vec.copyAssign (⟨[1, 2, 3], 5⟩ : Vec Nat) ⟨[9], 1⟩ false).elems = [9] :=
  copyAssign_cap_preserved ⟨[1, 2, 3], 5⟩ ⟨[9], 1⟩ (by decide)

end AdvVec
